import Mathlib

/-!
Verification of the p3loops module: a square whose North side is glued to
East and South to West, with directed boundary-to-boundary edges, chain
validity, and a chord-crossing predicate on the unrolled 400-unit boundary
circle.  Positions are modelled as rationals; Python strings are modelled
as lists of characters.
-/

namespace P3loops

/-- The four sides of the square (the `Side` enum of p3loops.py). -/
inductive Side where
  | north
  | east
  | south
  | west
deriving DecidableEq

/-- A point on the boundary of the square: a side together with a
percentage along that side in its directed orientation (`Point` in
p3loops.py, with the float position modelled as a rational). -/
structure Point where
  side : Side
  position : ℚ
deriving DecidableEq

/-- `Point.__post_init__`: construction succeeds exactly when
`0 <= position <= 100`; the `ValueError` raised otherwise is modelled by
`none`. -/
def mkPoint (s : Side) (pos : ℚ) : Option Point :=
  if 0 ≤ pos ∧ pos ≤ 100 then some ⟨s, pos⟩ else none

/-- `Point.canonicalize`: North points move to East, South points to
West, East and West points are fixed. -/
def Point.canonicalize (p : Point) : Point :=
  match p.side with
  | Side.north => ⟨Side.east, p.position⟩
  | Side.south => ⟨Side.west, p.position⟩
  | _ => p

/-- `Point.is_equivalent`: equality of canonical forms. -/
def Point.is_equivalent (a b : Point) : Bool :=
  a.canonicalize == b.canonicalize

/-- A directed edge between two boundary points (`Edge` in p3loops.py).
The source field `end` is a Lean keyword and is rendered as `stop`. -/
structure Edge where
  start : Point
  stop : Point
deriving DecidableEq

/-- `Edge.connects_to`: this edge's endpoint is equivalent to the other
edge's startpoint. -/
def Edge.connects_to (e1 e2 : Edge) : Bool :=
  e1.stop.is_equivalent e2.start

/-- `is_valid_path`: the Python loop checking
`edges[i].connects_to(edges[i+1])` for every consecutive pair. -/
def is_valid_path : List Edge → Bool
  | [] => true
  | [_] => true
  | e1 :: e2 :: rest => e1.connects_to e2 && is_valid_path (e2 :: rest)

/-- `_get_boundary_coordinate`: unroll the perimeter clockwise from the
north-west corner onto a single 0..400 coordinate. -/
def get_boundary_coordinate (p : Point) : ℚ :=
  match p.side with
  | Side.north => p.position
  | Side.east => 100 + (100 - p.position)
  | Side.south => 200 + p.position
  | Side.west => 300 + (100 - p.position)

/-- Python's `%` with the positive modulus 400 on exact numbers:
`x - 400 * floor (x / 400)`. -/
def mod400 (x : ℚ) : ℚ := x - 400 * (⌊x / 400⌋ : ℚ)

/-- The local `point_in_arc` helper of `_segments_intersect`: strict
membership of a point in the directed arc from `s` to `e`, all three
inputs reduced modulo 400 first. -/
def point_in_arc (x s e : ℚ) : Bool :=
  if mod400 s = mod400 e then false
  else if mod400 s < mod400 e then decide (mod400 s < mod400 x ∧ mod400 x < mod400 e)
  else decide (mod400 x > mod400 s ∨ mod400 x < mod400 e)

/-- `_segments_intersect`: the four inputs are first normalized modulo
400 (as in the Python source), then the two exactly-one containment
tests are conjoined. -/
def segments_intersect (a1 a2 b1 b2 : ℚ) : Bool :=
  (point_in_arc (mod400 b1) (mod400 a1) (mod400 a2) !=
      point_in_arc (mod400 b2) (mod400 a1) (mod400 a2)) &&
    (point_in_arc (mod400 a1) (mod400 b1) (mod400 b2) !=
      point_in_arc (mod400 a2) (mod400 b1) (mod400 b2))

/-- `edges_cross`: edges sharing an endpoint up to equivalence never
cross; otherwise the boundary coordinates are compared with
`_segments_intersect`. -/
def edges_cross (e1 e2 : Edge) : Bool :=
  if e1.start.is_equivalent e2.start || e1.start.is_equivalent e2.stop ||
      e1.stop.is_equivalent e2.start || e1.stop.is_equivalent e2.stop then
    false
  else
    segments_intersect (get_boundary_coordinate e1.start) (get_boundary_coordinate e1.stop)
      (get_boundary_coordinate e2.start) (get_boundary_coordinate e2.stop)

/-- `is_noncrossing`: the double loop over index pairs `i < j`, failing
as soon as some pair crosses. -/
def is_noncrossing : List Edge → Bool
  | [] => true
  | e :: rest => rest.all (fun f => !edges_cross e f) && is_noncrossing rest

/-- `is_noncrossing_path`: a valid path whose edges are pairwise
noncrossing. -/
def is_noncrossing_path (edges : List Edge) : Bool :=
  is_valid_path edges && is_noncrossing edges

/-- Python `str.lower()` on the characters of the string (the side
strings of interest are ASCII, where `Char.toLower` agrees with
Python). -/
def pyLower (s : List Char) : List Char := s.map Char.toLower

/-- Python `str.strip()`: remove leading and trailing whitespace. -/
def pyStrip (s : List Char) : List Char :=
  ((s.dropWhile Char.isWhitespace).reverse.dropWhile Char.isWhitespace).reverse

/-- `parse_side`: lower-case and strip the input, then match the eight
recognized spellings; the `ValueError` on anything else is modelled by
`none`. -/
def parse_side (s0 : List Char) : Option Side :=
  if pyStrip (pyLower s0) = ['n'] ∨ pyStrip (pyLower s0) = ['n', 'o', 'r', 't', 'h'] then
    some Side.north
  else if pyStrip (pyLower s0) = ['e'] ∨ pyStrip (pyLower s0) = ['e', 'a', 's', 't'] then
    some Side.east
  else if pyStrip (pyLower s0) = ['s'] ∨ pyStrip (pyLower s0) = ['s', 'o', 'u', 't', 'h'] then
    some Side.south
  else if pyStrip (pyLower s0) = ['w'] ∨ pyStrip (pyLower s0) = ['w', 'e', 's', 't'] then
    some Side.west
  else
    none

/-- The eight recognized side spellings. -/
def side_spellings : List (List Char) :=
  [['n'], ['n', 'o', 'r', 't', 'h'], ['e'], ['e', 'a', 's', 't'],
    ['s'], ['s', 'o', 'u', 't', 'h'], ['w'], ['w', 'e', 's', 't']]

/-- The arc-membership rule exactly as the specification words it, on
coordinates that are already reduced modulo 400: empty for a degenerate
arc, the open interval for a non-wrapping arc, and the wrapped union for
a wrapping arc. -/
def point_in_arc_spec (x s e : ℚ) : Bool :=
  if s = e then false
  else if s < e then decide (s < x ∧ x < e)
  else decide (x > s ∨ x < e)

/-- The crossing rule exactly as the specification words it: reduce the
four boundary coordinates modulo 400, then require that exactly one
endpoint of each chord lie inside the other chord's arc. -/
def arc_rule (e1 e2 : Edge) : Bool :=
  (point_in_arc_spec (mod400 (get_boundary_coordinate e2.start))
        (mod400 (get_boundary_coordinate e1.start)) (mod400 (get_boundary_coordinate e1.stop)) !=
      point_in_arc_spec (mod400 (get_boundary_coordinate e2.stop))
        (mod400 (get_boundary_coordinate e1.start)) (mod400 (get_boundary_coordinate e1.stop))) &&
    (point_in_arc_spec (mod400 (get_boundary_coordinate e1.start))
        (mod400 (get_boundary_coordinate e2.start)) (mod400 (get_boundary_coordinate e2.stop)) !=
      point_in_arc_spec (mod400 (get_boundary_coordinate e1.stop))
        (mod400 (get_boundary_coordinate e2.start)) (mod400 (get_boundary_coordinate e2.stop)))

/-- Reduction modulo 400 is idempotent. -/
theorem mod400_idem (x : ℚ) : mod400 (mod400 x) = mod400 x := by
  have h1 : (x - 400 * (⌊x / 400⌋ : ℚ)) / 400 = x / 400 - (⌊x / 400⌋ : ℚ) := by ring
  unfold mod400
  rw [h1, Int.floor_sub_int]
  simp

/-- The code's `point_in_arc` is the specification's rule applied to the
reduced inputs. -/
theorem point_in_arc_eq_spec (x s e : ℚ) :
    point_in_arc x s e = point_in_arc_spec (mod400 x) (mod400 s) (mod400 e) := rfl

/-- On inputs that are already reduced, the code's `point_in_arc` agrees
with the specification's rule. -/
theorem point_in_arc_mod (x s e : ℚ) :
    point_in_arc (mod400 x) (mod400 s) (mod400 e) =
      point_in_arc_spec (mod400 x) (mod400 s) (mod400 e) := by
  rw [point_in_arc_eq_spec, mod400_idem, mod400_idem, mod400_idem]

/-- A degenerate arc contains no point. -/
theorem point_in_arc_degenerate (x s e : ℚ) (h : mod400 s = mod400 e) :
    point_in_arc x s e = false := by
  unfold point_in_arc
  rw [if_pos h]

/-- Point equivalence is symmetric. -/
theorem Point.is_equivalent_comm (a b : Point) : a.is_equivalent b = b.is_equivalent a := by
  unfold Point.is_equivalent
  rcases eq_or_ne a.canonicalize b.canonicalize with h | h
  · rw [h]
  · rw [beq_eq_false_iff_ne.2 h, beq_eq_false_iff_ne.2 (Ne.symm h)]

/-- `_segments_intersect` is symmetric in its two chords. -/
theorem segments_intersect_comm (a1 a2 b1 b2 : ℚ) :
    segments_intersect a1 a2 b1 b2 = segments_intersect b1 b2 a1 a2 := by
  unfold segments_intersect
  exact Bool.and_comm _ _

/-- `edges_cross` is symmetric. -/
theorem edges_cross_comm (e1 e2 : Edge) : edges_cross e1 e2 = edges_cross e2 e1 := by
  unfold edges_cross
  rw [Point.is_equivalent_comm e2.start e1.start, Point.is_equivalent_comm e2.start e1.stop,
    Point.is_equivalent_comm e2.stop e1.start, Point.is_equivalent_comm e2.stop e1.stop]
  cases hP : e1.start.is_equivalent e2.start <;>
    cases hQ : e1.start.is_equivalent e2.stop <;>
      cases hR : e1.stop.is_equivalent e2.start <;>
        cases hS : e1.stop.is_equivalent e2.stop <;>
          simp [segments_intersect_comm]

/-- `is_noncrossing` checks exactly the ordered pairs `i < j`. -/
theorem is_noncrossing_iff_pairwise (edges : List Edge) :
    is_noncrossing edges = true ↔ edges.Pairwise (fun a b => edges_cross a b = false) := by
  induction edges with
  | nil => simp [is_noncrossing]
  | cons e rest ih =>
      simp [is_noncrossing, ih, List.all_eq_true, Bool.not_eq_true']

/-- `is_valid_path` checks exactly the chain condition on consecutive
pairs. -/
theorem is_valid_path_iff_chain (edges : List Edge) :
    is_valid_path edges = true ↔ edges.Chain' (fun a b => a.connects_to b = true) := by
  induction edges with
  | nil => simp [is_valid_path]
  | cons e rest ih =>
      cases rest with
      | nil => simp [is_valid_path]
      | cons f rest2 =>
          rw [is_valid_path, List.chain'_cons, Bool.and_eq_true, ih]

/-- C3: the boundary parameterization is exactly the piecewise map of
the spec, applied without canonicalization: North maps to `p`, East to
`100 + (100 - p)`, South to `200 + p`, West to `300 + (100 - p)`;
equivalent North and East points can receive different coordinates. -/
theorem boundary_parameterization_exact :
    (∀ p : ℚ, get_boundary_coordinate ⟨Side.north, p⟩ = p ∧
      get_boundary_coordinate ⟨Side.east, p⟩ = 100 + (100 - p) ∧
      get_boundary_coordinate ⟨Side.south, p⟩ = 200 + p ∧
      get_boundary_coordinate ⟨Side.west, p⟩ = 300 + (100 - p)) ∧
    (Point.is_equivalent ⟨Side.north, 30⟩ ⟨Side.east, 30⟩ = true ∧
      get_boundary_coordinate ⟨Side.north, 30⟩ ≠ get_boundary_coordinate ⟨Side.east, 30⟩) := by
  refine ⟨fun p => ⟨rfl, rfl, rfl, rfl⟩, by decide, ?_⟩
  norm_num [get_boundary_coordinate]

/-- C4 counterexample: the well-formed West point at position 0 receives
boundary coordinate 400, which is not in the half-open interval
[0, 400). -/
theorem boundary_coordinate_not_half_open :
    mkPoint Side.west 0 = some ⟨Side.west, 0⟩ ∧
      ¬ get_boundary_coordinate ⟨Side.west, 0⟩ < 400 := by
  norm_num [mkPoint, get_boundary_coordinate]

/-- C4 (amended): for every well-formed Point the boundary coordinate
lies in the closed interval [0, 400]. -/
theorem boundary_coordinate_range (p : Point) (h0 : 0 ≤ p.position) (h1 : p.position ≤ 100) :
    0 ≤ get_boundary_coordinate p ∧ get_boundary_coordinate p ≤ 400 := by
  rcases p with ⟨s, pos⟩
  dsimp at h0 h1
  cases s <;> simp only [get_boundary_coordinate] <;> exact ⟨by linarith, by linarith⟩

/-- C4 witness: the range bound at the concrete point North at 50. -/
theorem boundary_coordinate_range_witness :
    0 ≤ get_boundary_coordinate ⟨Side.north, 50⟩ ∧
      get_boundary_coordinate ⟨Side.north, 50⟩ ≤ 400 :=
  boundary_coordinate_range ⟨Side.north, 50⟩ (by norm_num) (by norm_num)

/-- C8: Point construction fails exactly when the position lies outside
the closed interval [0, 100]; positions 0 and 100 succeed, while -1 and
101 fail. -/
theorem point_construction_validity :
    (∀ (s : Side) (p : ℚ), mkPoint s p = none ↔ p < 0 ∨ 100 < p) ∧
    (∀ s : Side, mkPoint s 0 = some ⟨s, 0⟩ ∧ mkPoint s 100 = some ⟨s, 100⟩ ∧
      mkPoint s (-1) = none ∧ mkPoint s 101 = none) := by
  constructor
  · intro s p
    unfold mkPoint
    by_cases h : 0 ≤ p ∧ p ≤ 100
    · rw [if_pos h]
      constructor
      · intro hc
        simp at hc
      · intro hc
        exfalso
        rcases hc with hc | hc
        · linarith [h.1]
        · linarith [h.2]
    · rw [if_neg h]
      rw [not_and_or, not_le, not_le] at h
      exact iff_of_true rfl h
  · intro s
    refine ⟨?_, ?_, ?_, ?_⟩ <;> norm_num [mkPoint]

/-- C2: edges sharing an endpoint up to the North≡East / South≡West
identification never cross, regardless of their geometric arcs. -/
theorem shared_endpoint_edges_never_cross (e1 e2 : Edge)
    (h : e1.start.is_equivalent e2.start = true ∨ e1.start.is_equivalent e2.stop = true ∨
      e1.stop.is_equivalent e2.start = true ∨ e1.stop.is_equivalent e2.stop = true) :
    edges_cross e1 e2 = false := by
  unfold edges_cross
  rcases h with h | h | h | h <;> rw [h] <;> simp

/-- C2 witness: North at 10 to South at 50 and South at 50 to East at 80
share the vertex South at 50 and do not cross. -/
theorem shared_endpoint_edges_never_cross_witness :
    edges_cross ⟨⟨Side.north, 10⟩, ⟨Side.south, 50⟩⟩ ⟨⟨Side.south, 50⟩, ⟨Side.east, 80⟩⟩ = false :=
  shared_endpoint_edges_never_cross _ _ (Or.inr (Or.inr (Or.inl (by decide))))

/-- C5: an edge whose two endpoints have the same boundary coordinate
modulo 400 never crosses anything, in either argument order. -/
theorem degenerate_edge_never_crosses (e1 e2 : Edge)
    (h : mod400 (get_boundary_coordinate e1.start) = mod400 (get_boundary_coordinate e1.stop)) :
    edges_cross e1 e2 = false ∧ edges_cross e2 e1 = false := by
  have hdeg : ∀ x : ℚ, point_in_arc x (mod400 (get_boundary_coordinate e1.start))
      (mod400 (get_boundary_coordinate e1.stop)) = false := fun x =>
    point_in_arc_degenerate _ _ _ (by rw [h])
  constructor
  · unfold edges_cross
    split
    · rfl
    · unfold segments_intersect
      rw [hdeg, hdeg]
      simp
  · unfold edges_cross
    split
    · rfl
    · unfold segments_intersect
      rw [hdeg, hdeg]
      simp

/-- C5 witness: the degenerate edge North 0 to West 0 (coordinates 0 and
400, equal modulo 400) crosses nothing against East 50 to South 50, in
either order. -/
theorem degenerate_edge_never_crosses_witness :
    edges_cross ⟨⟨Side.north, 0⟩, ⟨Side.west, 0⟩⟩ ⟨⟨Side.east, 50⟩, ⟨Side.south, 50⟩⟩ = false ∧
      edges_cross ⟨⟨Side.east, 50⟩, ⟨Side.south, 50⟩⟩ ⟨⟨Side.north, 0⟩, ⟨Side.west, 0⟩⟩ = false :=
  degenerate_edge_never_crosses _ _ (by norm_num [get_boundary_coordinate, mod400])

/-- C1: when the four endpoints are pairwise non-equivalent,
`edges_cross` is decided exactly by the specification's arc rule. -/
theorem edges_cross_eq_arc_rule (e1 e2 : Edge)
    (h11 : e1.start.is_equivalent e1.stop = false)
    (h12 : e1.start.is_equivalent e2.start = false)
    (h13 : e1.start.is_equivalent e2.stop = false)
    (h22 : e1.stop.is_equivalent e2.start = false)
    (h23 : e1.stop.is_equivalent e2.stop = false)
    (h33 : e2.start.is_equivalent e2.stop = false) :
    edges_cross e1 e2 = arc_rule e1 e2 := by
  unfold edges_cross
  rw [h12, h13, h22, h23]
  rw [if_neg (by decide : ¬ ((((false || false) || false) || false) = true))]
  unfold segments_intersect arc_rule
  rw [point_in_arc_mod, point_in_arc_mod, point_in_arc_mod, point_in_arc_mod]

/-- C1 witness: the crossing pair North 10 to South 10 and East 50 to
West 50 satisfies the arc rule equation. -/
theorem edges_cross_eq_arc_rule_witness :
    edges_cross ⟨⟨Side.north, 10⟩, ⟨Side.south, 10⟩⟩ ⟨⟨Side.east, 50⟩, ⟨Side.west, 50⟩⟩ =
      arc_rule ⟨⟨Side.north, 10⟩, ⟨Side.south, 10⟩⟩ ⟨⟨Side.east, 50⟩, ⟨Side.west, 50⟩⟩ :=
  edges_cross_eq_arc_rule _ _ (by decide) (by decide) (by decide) (by decide) (by decide)
    (by decide)

/-- C6: `is_valid_path` accepts the empty and singleton sequences, and a
longer sequence exactly when every consecutive pair connects; the check
is purely local to adjacent pairs. -/
theorem is_valid_path_characterization :
    is_valid_path [] = true ∧ (∀ e : Edge, is_valid_path [e] = true) ∧
    ∀ edges : List Edge,
      (is_valid_path edges = true ↔ edges.Chain' (fun a b => a.connects_to b = true)) :=
  ⟨rfl, fun _ => rfl, is_valid_path_iff_chain⟩

/-- C7: `is_noncrossing` holds exactly when every unordered pair of
distinct positions in the sequence fails `edges_cross` (both
orientations), and `is_noncrossing_path` is the conjunction of path
validity and noncrossing-ness. -/
theorem noncrossing_characterization :
    (∀ edges : List Edge, (is_noncrossing edges = true ↔
      edges.Pairwise (fun a b => edges_cross a b = false ∧ edges_cross b a = false))) ∧
    ∀ edges : List Edge,
      is_noncrossing_path edges = (is_valid_path edges && is_noncrossing edges) := by
  constructor
  · intro edges
    rw [is_noncrossing_iff_pairwise]
    constructor
    · intro h
      exact h.imp fun hc => ⟨hc, by rw [edges_cross_comm]; exact hc⟩
    · intro h
      exact h.imp fun hc => hc.1
  · intro edges
    rfl

/-- C9 counterexample: the two-character string of a space followed by
`n` is not an upper/mixed-case form of any recognized spelling, yet the
parser accepts it, because the code also strips whitespace. -/
theorem parse_side_counterexample :
    (∀ t ∈ side_spellings, pyLower [' ', 'n'] ≠ t) ∧
      parse_side [' ', 'n'] = some Side.north := by
  decide

/-- C9 (amended): the parser lower-cases and whitespace-strips its
input and then accepts exactly the eight recognized spellings,
returning the corresponding side and failing on every other input. -/
theorem parse_side_characterization : ∀ s : List Char,
    (parse_side s = some Side.north ↔
      (pyStrip (pyLower s) = ['n'] ∨ pyStrip (pyLower s) = ['n', 'o', 'r', 't', 'h'])) ∧
    (parse_side s = some Side.east ↔
      (pyStrip (pyLower s) = ['e'] ∨ pyStrip (pyLower s) = ['e', 'a', 's', 't'])) ∧
    (parse_side s = some Side.south ↔
      (pyStrip (pyLower s) = ['s'] ∨ pyStrip (pyLower s) = ['s', 'o', 'u', 't', 'h'])) ∧
    (parse_side s = some Side.west ↔
      (pyStrip (pyLower s) = ['w'] ∨ pyStrip (pyLower s) = ['w', 'e', 's', 't'])) ∧
    (parse_side s = none ↔ pyStrip (pyLower s) ∉ side_spellings) := by
  intro s
  unfold parse_side
  split_ifs with h1 h2 h3 h4
  · rcases h1 with h | h <;> rw [h] <;> decide
  · rcases h2 with h | h <;> rw [h] <;> decide
  · rcases h3 with h | h <;> rw [h] <;> decide
  · rcases h4 with h | h <;> rw [h] <;> decide
  · push_neg at h1 h2 h3 h4
    simp [side_spellings, h1.1, h1.2, h2.1, h2.2, h3.1, h3.2, h4.1, h4.2]

/-- C10: `edges_cross` is symmetric in its two arguments, which makes
the pairs checked by `is_noncrossing` unordered. -/
theorem edges_cross_symmetric : ∀ e1 e2 : Edge, edges_cross e1 e2 = edges_cross e2 e1 :=
  fun e1 e2 => edges_cross_comm e1 e2

end P3loops
